import Mathlib

/-!
Verification of the Math Bubbles game core (`src/src/App.tsx` and its earlier
revision `src/unnamed/part_000`).

The core of the repository is a small event-driven state machine: a batch of
three equations is shown, the player selects three bubble ids in claimed
ascending order of their values, and a countdown timer forces a restart of the
round on expiry.  We embed that state machine shallowly: every `useState` field
of the React component becomes a field of `GameState`, every handler becomes a
function `GameState → GameState`, and the fire-and-forget `setTimeout`
callbacks of the source become explicit `Pending` entries in the state that a
separate `Step` event can fire later (the source never cancels them, and
neither does the model).  Rational numbers stand in for the JS floating-point
`timeLeft`; integers for the equation values and the score.

The onboarding-tour flag (`isTourActive`) present in `App.tsx` is an input
suppression concern of the presentation layer (the earlier core revision
`part_000` does not have it), so it is not part of the embedded machine.
-/

namespace MathBubbles

/-- The `Equation` record of `gameLogic.ts`: a stable string id, the display
text of the expression, and its pre-evaluated numeric value. -/
structure Equation where
  id : String
  expression : String
  value : Int
deriving DecidableEq, Repr

/-- The `feedbackStatus` values `'neutral' | 'correct' | 'wrong'`. -/
inductive Feedback where
  | neutral
  | correct
  | wrong
deriving DecidableEq, Repr

/-- The three kinds of `setTimeout` callbacks the source schedules.  Each
captures the values closed over at schedule time, exactly as the JS closures
do:

* `timeUpRestart lvl` is the callback of `handleTimeUp`, which runs
  `startLevel(level)` with the `level` captured when the timer expired;
* `advanceLevel lvl` is the callback of the correct branch of
  `validateSelection`, which runs `setLevel(prev => prev + 1);
  startLevel(level + 1)` with the captured `level`;
* `resetFeedback` is the callback of the wrong branch, which runs
  `setFeedbackStatus('neutral')`. -/
inductive PendingAction where
  | timeUpRestart (lvl : Nat)
  | advanceLevel (lvl : Nat)
  | resetFeedback
deriving DecidableEq, Repr

/-- A scheduled `setTimeout(cb, delayMs)` that has not fired yet. -/
structure Pending where
  delayMs : Nat
  action : PendingAction
deriving DecidableEq, Repr

/-- The component state of `App`: one field per `useState` hook, plus the
queue of scheduled, not-yet-fired timeouts. -/
structure GameState where
  isPlaying : Bool
  level : Nat
  score : Int
  timeLeft : ℚ
  equations : List Equation
  selectedIds : List String
  gameOver : Bool
  wrongAttempts : Nat
  feedbackStatus : Feedback
  pending : List Pending
deriving DecidableEq, Repr

/-- JS `v || 0` applied to a number `v`: falsy `0` is replaced by the default
`0` (which is the same value), anything else is kept. -/
def jsOrDefault (v : Int) : Int :=
  if v = 0 then 0 else v

/-- `equations.find(e => e.id === id)?.value || 0` from `validateSelection`:
resolve a selected id to its equation's value, defaulting to `0` when no
equation matches. -/
def resolveId (equations : List Equation) (i : String) : Int :=
  match equations.find? (fun e => e.id == i) with
  | some e => jsOrDefault e.value
  | none => 0

/-- `selectedValues[0] <= selectedValues[1] && selectedValues[1] <=
selectedValues[2]` from `validateSelection`.  On a list of length ≥ 3 this is
exactly the source's comparison chain; on a shorter list the JS comparison
against `undefined` is `false`, matched by the catch-all. -/
def checkOrder (vs : List Int) : Bool :=
  match vs with
  | v0 :: v1 :: v2 :: _ => decide (v0 ≤ v1) && decide (v1 ≤ v2)
  | _ => false

/-- Modelled from the spec: `generateEquations` lives in `src/gameLogic.ts`,
which is not among the source files; only its import and call sites are.  Per
the spec's contract (§4.1) it returns, for every level ≥ 1, exactly 3
equations with unique ids and pre-evaluated values, with operand magnitude
scaling with the level.  Randomness is modelled deterministically: equation
`i` of level `L` displays `L + (L + i)` and carries its evaluated value. -/
def generateEquations (level : Nat) : List Equation :=
  [0, 1, 2].map fun i =>
    { id := "b" ++ toString i
      expression := toString level ++ " + " ++ toString (level + i)
      value := (level : Int) + (level + i) }

/-- An equation whose `value` field is the numerically valid evaluation of
its displayed `expression` (the generator only emits additions). -/
def equationWellFormed (e : Equation) : Prop :=
  ∃ a b : Nat,
    e.expression = toString a ++ " + " ++ toString b ∧
    e.value = (a : Int) + (b : Int)

/-- `startLevel(currentLevel)`: fresh equations for the given level, cleared
selection, timer reset to 15, neutral feedback. -/
def startLevel (currentLevel : Nat) (s : GameState) : GameState :=
  { s with
    equations := generateEquations currentLevel
    selectedIds := []
    timeLeft := 15
    feedbackStatus := .neutral }

/-- `startGame`: enter play, reset score/level/miss count, start level 1. -/
def startGame (s : GameState) : GameState :=
  startLevel 1
    { s with isPlaying := true, gameOver := false, score := 0, level := 1, wrongAttempts := 0 }

/-- `handleTimeUp`: increment the miss counter, show wrong feedback, and
schedule `startLevel(level)` after 1000 ms (the `level` value is captured
now). -/
def handleTimeUp (s : GameState) : GameState :=
  { s with
    wrongAttempts := s.wrongAttempts + 1
    feedbackStatus := .wrong
    pending := s.pending ++ [⟨1000, .timeUpRestart s.level⟩] }

/-- `handleStopGame`: set the terminal `gameOver` flag.  Nothing else: in
particular no scheduled timeout is cancelled. -/
def handleStopGame (s : GameState) : GameState :=
  { s with gameOver := true }

/-- The body of the `setInterval` callback of the timer effect: if
`prev <= 0.1` run `handleTimeUp` and clamp `timeLeft` to 0, otherwise
decrement by 0.1.  The effect itself only installs the interval while
`isPlaying && !gameOver`; that guard lives on the `Step.tick` event below. -/
def tick (s : GameState) : GameState :=
  if s.timeLeft ≤ 1 / 10 then
    { handleTimeUp s with timeLeft := 0 }
  else
    { s with timeLeft := s.timeLeft - 1 / 10 }

/-- `validateSelection(selected)`: resolve the selected ids in selection
order, test the non-strict ascending chain, and either award
`level * 10 + Math.floor(timeLeft)` and schedule the level advance after
1000 ms, or show wrong feedback, count the miss, and schedule the feedback
reset after 500 ms.  The selection itself is never touched here. -/
def validateSelection (selected : List String) (s : GameState) : GameState :=
  let selectedValues := selected.map (resolveId s.equations)
  let isCorrect := checkOrder selectedValues
  if isCorrect then
    { s with
      feedbackStatus := .correct
      score := s.score + (s.level : Int) * 10 + ⌊s.timeLeft⌋
      pending := s.pending ++ [⟨1000, .advanceLevel s.level⟩] }
  else
    { s with
      feedbackStatus := .wrong
      wrongAttempts := s.wrongAttempts + 1
      pending := s.pending ++ [⟨500, .resetFeedback⟩] }

/-- `handleBubbleClick(id)`: ignore the tap unless feedback is neutral and the
game is not over; toggle off an already-selected id; otherwise append the id
and, exactly when the selection just reached length 3, validate it. -/
def handleBubbleClick (i : String) (s : GameState) : GameState :=
  if s.gameOver || s.feedbackStatus != .neutral then s
  else if s.selectedIds.contains i then
    { s with selectedIds := s.selectedIds.filter (fun selectedId => selectedId != i) }
  else
    let newSelected := s.selectedIds ++ [i]
    let s1 := { s with selectedIds := newSelected }
    if newSelected.length = 3 then validateSelection newSelected s1 else s1

/-- Run the callback of a fired `setTimeout`.  The source callbacks are
unconditional: they consult no current state flag (in particular not
`gameOver`) before mutating. -/
def applyPending (p : PendingAction) (s : GameState) : GameState :=
  match p with
  | .timeUpRestart lvl => startLevel lvl s
  | .advanceLevel lvl => startLevel (lvl + 1) { s with level := s.level + 1 }
  | .resetFeedback => { s with feedbackStatus := .neutral }

/-- The initial `useState` values of the component. -/
def initialState : GameState :=
  { isPlaying := false
    level := 1
    score := 0
    timeLeft := 15
    equations := []
    selectedIds := []
    gameOver := false
    wrongAttempts := 0
    feedbackStatus := .neutral
    pending := [] }

/-- One event of the machine.  `tick` only happens while the timer interval is
installed (`isPlaying && !gameOver`, the guard of the timer effect); a bubble
can only be tapped while the game screen is rendered (`isPlaying`); a
scheduled timeout may fire at any time, removing itself from the queue. -/
inductive Step : GameState → GameState → Prop where
  | start (s : GameState) : Step s (startGame s)
  | stop (s : GameState) : Step s (handleStopGame s)
  | click (s : GameState) (i : String) (hp : s.isPlaying = true) :
      Step s (handleBubbleClick i s)
  | tick (s : GameState) (hp : s.isPlaying = true) (hg : s.gameOver = false) :
      Step s (tick s)
  | fire (s : GameState) (p : Pending) (l1 l2 : List Pending)
      (h : s.pending = l1 ++ p :: l2) :
      Step s (applyPending p.action { s with pending := l1 ++ l2 })

/-- States reachable from the initial component state. -/
inductive Reachable : GameState → Prop where
  | init : Reachable initialState
  | step {s t : GameState} : Reachable s → Step s t → Reachable t

/-- Concrete state right after `startGame` from the initial state.  At level 1
the generated values are 2, 3, 4 for ids `b0`, `b1`, `b2`. -/
def afterStart : GameState := startGame initialState

/-- Concrete state after tapping `b0`, `b1`, `b2` in ascending-value order:
the third tap validates, awards `1 * 10 + ⌊15⌋ = 25` points, and schedules the
level advance. -/
def afterThreeClicks : GameState :=
  handleBubbleClick "b2" (handleBubbleClick "b1" (handleBubbleClick "b0" afterStart))

/-- Concrete state after pressing Stop while the level-advance timeout is
still pending. -/
def stoppedState : GameState := handleStopGame afterThreeClicks

/-- Concrete state after the stale level-advance timeout fires on the
stopped game. -/
def staleAdvance : GameState :=
  applyPending (PendingAction.advanceLevel 1) { stoppedState with pending := [] }

/-- A concrete mid-game state used to instantiate universally quantified
theorems: level 3, 7.4 seconds left (the spec's worked example), a selection
naming the three displayed equations. -/
def midGameState : GameState :=
  { isPlaying := true
    level := 3
    score := 100
    timeLeft := ⟨37, 5, by decide, by decide⟩
    equations := [⟨"x", "1 + 1", 2⟩, ⟨"y", "1 + 2", 3⟩, ⟨"z", "1 + 3", 4⟩]
    selectedIds := []
    gameOver := false
    wrongAttempts := 2
    feedbackStatus := .neutral
    pending := [] }

/-! Helper lemmas about the handlers.  None of these is tied to a single
claim; the claim theorems below build on them. -/

lemma validateSelection_selectedIds (sel : List String) (s : GameState) :
    (validateSelection sel s).selectedIds = s.selectedIds := by
  simp only [validateSelection]
  split <;> rfl

lemma validateSelection_timeLeft (sel : List String) (s : GameState) :
    (validateSelection sel s).timeLeft = s.timeLeft := by
  simp only [validateSelection]
  split <;> rfl

lemma validateSelection_feedback_correct_iff (sel : List String) (s : GameState) :
    (validateSelection sel s).feedbackStatus = Feedback.correct ↔
      checkOrder (sel.map (resolveId s.equations)) = true := by
  simp only [validateSelection]
  split <;> simp_all

lemma checkOrder_triple (v0 v1 v2 : Int) :
    checkOrder [v0, v1, v2] = true ↔ (v0 ≤ v1 ∧ v1 ≤ v2) := by
  simp [checkOrder]

lemma jsOrDefault_eq (v : Int) : jsOrDefault v = v := by
  unfold jsOrDefault
  split <;> simp_all

lemma find?_eq_of_perm {l l2 : List Equation} (hp : l.Perm l2)
    (hn : (l.map Equation.id).Nodup) (i : String) :
    l.find? (fun e => e.id == i) = l2.find? (fun e => e.id == i) := by
  rcases h : l.find? (fun e => e.id == i) with _ | e
  · rw [h]
    symm
    rw [List.find?_eq_none] at h ⊢
    intro x hx
    exact h x (hp.symm.subset hx)
  · have hmem : e ∈ l := List.mem_of_find?_eq_some h
    have hpe := List.find?_some h
    simp only [beq_iff_eq] at hpe
    rcases h2 : l2.find? (fun e => e.id == i) with _ | e2
    · rw [List.find?_eq_none] at h2
      have := h2 e (hp.subset hmem)
      simp [hpe] at this
    · have hmem2 : e2 ∈ l := hp.symm.subset (List.mem_of_find?_eq_some h2)
      have hpe2 := List.find?_some h2
      simp only [beq_iff_eq] at hpe2
      have he : e2 = e := by
        apply List.inj_on_of_nodup_map hn hmem2 hmem
        rw [hpe, hpe2]
      rw [h, h2, he]

lemma resolveId_perm {l l2 : List Equation} (hp : l.Perm l2)
    (hn : (l.map Equation.id).Nodup) (i : String) :
    resolveId l2 i = resolveId l i := by
  unfold resolveId
  rw [find?_eq_of_perm hp hn]

lemma handleBubbleClick_selectedIds_nodup (i : String) {s : GameState}
    (h : s.selectedIds.Nodup) : (handleBubbleClick i s).selectedIds.Nodup := by
  unfold handleBubbleClick
  split
  · exact h
  split
  · exact h.filter _
  next hcon =>
    have hmem : i ∉ s.selectedIds := by
      simpa using hcon
    have happ : (s.selectedIds ++ [i]).Nodup := by
      simp [List.nodup_append, h, hmem]
    dsimp only
    split
    · rw [validateSelection_selectedIds]
      exact happ
    · exact happ

lemma handleBubbleClick_timeLeft (i : String) (s : GameState) :
    (handleBubbleClick i s).timeLeft = s.timeLeft := by
  unfold handleBubbleClick
  split
  · rfl
  split
  · rfl
  dsimp only
  split
  · rw [validateSelection_timeLeft]
  · rfl

lemma startLevel_selectedIds (lvl : Nat) (s : GameState) :
    (startLevel lvl s).selectedIds = [] := rfl

lemma startLevel_timeLeft (lvl : Nat) (s : GameState) :
    (startLevel lvl s).timeLeft = 15 := rfl

lemma applyPending_selectedIds_nodup (p : PendingAction) {s : GameState}
    (h : s.selectedIds.Nodup) : (applyPending p s).selectedIds.Nodup := by
  cases p <;> simp [applyPending, startLevel, h]

lemma applyPending_timeLeft_nonneg (p : PendingAction) {s : GameState}
    (h : 0 ≤ s.timeLeft) : 0 ≤ (applyPending p s).timeLeft := by
  cases p <;> simp [applyPending, startLevel, h]

lemma step_selectedIds_nodup {s t : GameState} (hst : Step s t)
    (h : s.selectedIds.Nodup) : t.selectedIds.Nodup := by
  cases hst with
  | start => simp [startGame, startLevel]
  | stop => simpa [handleStopGame] using h
  | click i hp => exact handleBubbleClick_selectedIds_nodup i h
  | tick hp hg =>
      unfold tick
      split
      · simpa [handleTimeUp] using h
      · simpa using h
  | fire p l1 l2 hpend => exact applyPending_selectedIds_nodup p.action h

lemma step_timeLeft_nonneg {s t : GameState} (hst : Step s t)
    (h : 0 ≤ s.timeLeft) : 0 ≤ t.timeLeft := by
  cases hst with
  | start => norm_num [startGame, startLevel]
  | stop => simpa [handleStopGame] using h
  | click i hp => rw [handleBubbleClick_timeLeft]; exact h
  | tick hp hg =>
      unfold tick
      split
      · norm_num
      next hgt =>
        push_neg at hgt
        dsimp only
        linarith
  | fire p l1 l2 hpend => exact applyPending_timeLeft_nonneg p.action h

lemma reachable_selectedIds_nodup {s : GameState} (h : Reachable s) :
    s.selectedIds.Nodup := by
  induction h with
  | init => exact List.nodup_nil
  | step hr hst ih => exact step_selectedIds_nodup hst ih

lemma reachable_timeLeft_nonneg {s : GameState} (h : Reachable s) :
    0 ≤ s.timeLeft := by
  induction h with
  | init => norm_num [initialState]
  | step hr hst ih => exact step_timeLeft_nonneg hst ih

/-- Claim C1: for every batch of equations (with the batch invariant of
pairwise-unique ids) and every selection of exactly 3 ids, validation reports
correct if and only if the resolved values are non-strictly ascending in the
order the player selected them, and the verdict is unchanged under any
permutation of the displayed equation array. -/
theorem C1_validation_order (s : GameState) (a b c : String)
    (hn : (s.equations.map Equation.id).Nodup) :
    ((validateSelection [a, b, c] s).feedbackStatus = Feedback.correct ↔
      (resolveId s.equations a ≤ resolveId s.equations b ∧
        resolveId s.equations b ≤ resolveId s.equations c)) ∧
    (∀ es2 : List Equation, es2.Perm s.equations →
      (validateSelection [a, b, c] { s with equations := es2 }).feedbackStatus =
        (validateSelection [a, b, c] s).feedbackStatus) := by
  constructor
  · rw [validateSelection_feedback_correct_iff]
    simp only [List.map_cons, List.map_nil]
    exact checkOrder_triple _ _ _
  · intro es2 hperm
    have hres : ∀ i : String, resolveId es2 i = resolveId s.equations i :=
      fun i => resolveId_perm hperm.symm hn i
    have hmap : List.map (resolveId es2) [a, b, c] =
        List.map (resolveId s.equations) [a, b, c] := by
      simp [hres]
    simp only [validateSelection]
    rw [hmap]
    split <;> rfl

/-- Witness for C1 at the concrete level-1 batch (values 2, 3, 4) and the
ascending selection `b0, b1, b2`. -/
theorem C1_validation_order_witness :
    (validateSelection ["b0", "b1", "b2"] afterStart).feedbackStatus = Feedback.correct ↔
      (resolveId afterStart.equations "b0" ≤ resolveId afterStart.equations "b1" ∧
        resolveId afterStart.equations "b1" ≤ resolveId afterStart.equations "b2") :=
  (C1_validation_order afterStart "b0" "b1" "b2" (by decide)).1

/-- Claim C2: a correct validation increases the score by exactly
`level * 10 + ⌊timeLeft⌋`, computed from the `timeLeft` the state had when the
third selection completed the round (`validateSelection` reads it from the
same state, before any later tick can change it); an incorrect validation
leaves the score unchanged. -/
theorem C2_score_delta (s : GameState) (sel : List String) :
    (checkOrder (sel.map (resolveId s.equations)) = true →
      (validateSelection sel s).score = s.score + (s.level : Int) * 10 + ⌊s.timeLeft⌋) ∧
    (checkOrder (sel.map (resolveId s.equations)) = false →
      (validateSelection sel s).score = s.score) := by
  constructor <;> intro h <;> simp [validateSelection, h]

/-- Witness for C2 at the spec's worked example: level 3, `timeLeft = 7.4`
(37/5), prior score 100, and a correct selection; the score becomes
`100 + 3 * 10 + ⌊7.4⌋ = 137`. -/
theorem C2_score_delta_witness :
    (validateSelection ["x", "y", "z"] midGameState).score = 137 := by
  have h := (C2_score_delta midGameState ["x", "y", "z"]).1 (by decide)
  rw [h]
  decide

/-- Claim C4: an incorrect validation leaves the selection, the equations, the
level, the score and the timer untouched, increments `wrongAttempts` by
exactly 1, sets wrong feedback, and schedules only a 500 ms feedback reset;
firing that reset restores neutral feedback and changes nothing else. -/
theorem C4_wrong_validation (s : GameState) (sel : List String)
    (h : checkOrder (sel.map (resolveId s.equations)) = false) :
    (validateSelection sel s).selectedIds = s.selectedIds ∧
    (validateSelection sel s).equations = s.equations ∧
    (validateSelection sel s).level = s.level ∧
    (validateSelection sel s).score = s.score ∧
    (validateSelection sel s).timeLeft = s.timeLeft ∧
    (validateSelection sel s).wrongAttempts = s.wrongAttempts + 1 ∧
    (validateSelection sel s).feedbackStatus = Feedback.wrong ∧
    (validateSelection sel s).pending =
      s.pending ++ [⟨500, PendingAction.resetFeedback⟩] ∧
    applyPending PendingAction.resetFeedback (validateSelection sel s) =
      { validateSelection sel s with feedbackStatus := Feedback.neutral } := by
  simp [validateSelection, h, applyPending]

/-- Witness for C4: selecting the level-1 ids in descending-value order
`b2, b1, b0` (values 4, 3, 2) is an incorrect validation. -/
theorem C4_wrong_validation_witness :
    (validateSelection ["b2", "b1", "b0"] afterStart).selectedIds =
        afterStart.selectedIds ∧
      (validateSelection ["b2", "b1", "b0"] afterStart).wrongAttempts =
        afterStart.wrongAttempts + 1 := by
  have h := C4_wrong_validation afterStart ["b2", "b1", "b0"] (by decide)
  exact ⟨h.1, h.2.2.2.2.2.1⟩

/-- Claim C5: when the countdown reaches the expiry threshold, the tick runs
the time-up transition: `wrongAttempts` goes up by exactly 1, `gameOver` and
the score are untouched, the level is unchanged, and the scheduled restart
produces — at that same level — a fresh batch, an empty selection, a reset
timer and neutral feedback, again without touching `gameOver` or the
score. -/
theorem C5_timeout_restart (s : GameState) (h : s.timeLeft ≤ 1 / 10) :
    (tick s).wrongAttempts = s.wrongAttempts + 1 ∧
    (tick s).gameOver = s.gameOver ∧
    (tick s).score = s.score ∧
    (tick s).level = s.level ∧
    (tick s).timeLeft = 0 ∧
    (tick s).feedbackStatus = Feedback.wrong ∧
    (tick s).pending = s.pending ++ [⟨1000, PendingAction.timeUpRestart s.level⟩] ∧
    ∀ u : GameState,
      (applyPending (PendingAction.timeUpRestart s.level) u).level = u.level ∧
      (applyPending (PendingAction.timeUpRestart s.level) u).equations =
        generateEquations s.level ∧
      (applyPending (PendingAction.timeUpRestart s.level) u).selectedIds = [] ∧
      (applyPending (PendingAction.timeUpRestart s.level) u).timeLeft = 15 ∧
      (applyPending (PendingAction.timeUpRestart s.level) u).feedbackStatus =
        Feedback.neutral ∧
      (applyPending (PendingAction.timeUpRestart s.level) u).gameOver = u.gameOver ∧
      (applyPending (PendingAction.timeUpRestart s.level) u).score = u.score := by
  rw [tick, if_pos h]
  refine ⟨rfl, rfl, rfl, rfl, rfl, rfl, rfl, ?_⟩
  intro u
  exact ⟨rfl, rfl, rfl, rfl, rfl, rfl, rfl⟩

/-- Witness for C5 at a state whose timer has run down to 0. -/
theorem C5_timeout_restart_witness :
    (tick { midGameState with timeLeft := 0 }).wrongAttempts =
      { midGameState with timeLeft := 0 }.wrongAttempts + 1 :=
  (C5_timeout_restart { midGameState with timeLeft := 0 } (by simp)).1

/-- Claim C6: with neutral feedback and the game not over, tapping an
already-selected id removes exactly that id (whatever the selection count)
and has no other effect, hence never validates; tapping a new id appends it,
and validation runs exactly when the append makes the selection length 3. -/
theorem C6_click_toggle (s : GameState) (i : String)
    (hf : s.feedbackStatus = Feedback.neutral) (hg : s.gameOver = false) :
    (s.selectedIds.contains i = true →
      handleBubbleClick i s =
        { s with selectedIds := s.selectedIds.filter (fun x => x != i) }) ∧
    (s.selectedIds.contains i = true → s.selectedIds.Nodup →
      (handleBubbleClick i s).selectedIds = s.selectedIds.erase i) ∧
    (s.selectedIds.contains i = false → (s.selectedIds ++ [i]).length = 3 →
      handleBubbleClick i s =
        validateSelection (s.selectedIds ++ [i]) { s with selectedIds := s.selectedIds ++ [i] }) ∧
    (s.selectedIds.contains i = false → (s.selectedIds ++ [i]).length ≠ 3 →
      handleBubbleClick i s = { s with selectedIds := s.selectedIds ++ [i] }) := by
  have hguard : (s.gameOver || s.feedbackStatus != Feedback.neutral) = false := by
    rw [hf, hg]
    rfl
  refine ⟨?_, ?_, ?_, ?_⟩
  · intro hcon
    rw [handleBubbleClick, hguard, if_neg (by simp), if_pos hcon]
  · intro hcon hnd
    rw [handleBubbleClick, hguard, if_neg (by simp), if_pos hcon]
    rw [hnd.erase_eq_filter]
  · intro hcon hlen
    have hmem : i ∉ s.selectedIds := by simpa using hcon
    rw [handleBubbleClick, hguard, if_neg (by simp), if_neg (by simpa using hmem)]
    dsimp only
    rw [if_pos hlen]
  · intro hcon hlen
    have hmem : i ∉ s.selectedIds := by simpa using hcon
    rw [handleBubbleClick, hguard, if_neg (by simp), if_neg (by simpa using hmem)]
    dsimp only
    rw [if_neg hlen]

/-- Witness for C6 at a state with one selected id: tapping it again
deselects it, with the full state otherwise unchanged. -/
theorem C6_click_toggle_witness :
    handleBubbleClick "x" { midGameState with selectedIds := ["x"] } =
      { midGameState with
        selectedIds := (["x"] : List String).filter (fun x => x != "x") } :=
  (C6_click_toggle { midGameState with selectedIds := ["x"] } "x" rfl rfl).1 (by decide)

/-- Claim C7: resolving a selected id with no matching equation yields the
defensive default 0 rather than failing, and validation of an arbitrary
3-id selection always produces a definite verdict (correct or wrong
feedback). -/
theorem C7_missing_id_resolves_zero (es : List Equation) (i : String)
    (h : es.find? (fun e => e.id == i) = none) :
    resolveId es i = 0 ∧
    ∀ (s : GameState) (a b c : String),
      (validateSelection [a, b, c] s).feedbackStatus = Feedback.correct ∨
      (validateSelection [a, b, c] s).feedbackStatus = Feedback.wrong := by
  refine ⟨?_, ?_⟩
  · rw [resolveId, h]
  · intro s a b c
    simp only [validateSelection]
    split
    · exact Or.inl rfl
    · exact Or.inr rfl

/-- Witness for C7: the id `ghost` matches nothing in the level-1 batch. -/
theorem C7_missing_id_resolves_zero_witness :
    resolveId afterStart.equations "ghost" = 0 :=
  (C7_missing_id_resolves_zero afterStart.equations "ghost" (by decide)).1

/-- Claim C8: in every reachable state `timeLeft` is non-negative; a tick at
or below the 0.1 threshold runs the time-up transition and clamps `timeLeft`
to 0 instead of going negative, and a tick above it decrements by exactly the
fixed 0.1 step, staying non-negative. -/
theorem C8_timer_never_negative (s : GameState) (h : Reachable s) :
    0 ≤ s.timeLeft ∧
    (s.timeLeft ≤ 1 / 10 → tick s = { handleTimeUp s with timeLeft := 0 }) ∧
    (1 / 10 < s.timeLeft →
      tick s = { s with timeLeft := s.timeLeft - 1 / 10 } ∧ 0 ≤ (tick s).timeLeft) := by
  refine ⟨reachable_timeLeft_nonneg h, ?_, ?_⟩
  · intro hle
    rw [tick, if_pos hle]
  · intro hlt
    have heq : tick s = { s with timeLeft := s.timeLeft - 1 / 10 } := by
      rw [tick, if_neg (not_le.mpr hlt)]
    refine ⟨heq, ?_⟩
    rw [heq]
    dsimp only
    linarith

/-- Witness for C8 at the initial state, which is reachable by definition. -/
theorem C8_timer_never_negative_witness : 0 ≤ initialState.timeLeft :=
  (C8_timer_never_negative initialState Reachable.init).1

/-- Claim C9 (generator modelled from the spec): for every level ≥ 1 the
generator returns exactly 3 equations, their ids are pairwise distinct, and
each `value` is the valid evaluation of its `expression`. -/
theorem C9_generate_contract (level : Nat) (_hlev : 1 ≤ level) :
    (generateEquations level).length = 3 ∧
    ((generateEquations level).map Equation.id).Nodup ∧
    ∀ e ∈ generateEquations level, equationWellFormed e := by
  refine ⟨rfl, ?_, ?_⟩
  · have hids : (generateEquations level).map Equation.id = ["b0", "b1", "b2"] := rfl
    rw [hids]
    decide
  · intro e he
    simp only [generateEquations, List.map_cons, List.map_nil, List.mem_cons,
      List.not_mem_nil, or_false] at he
    rcases he with rfl | rfl | rfl
    · exact ⟨level, level + 0, rfl, by push_cast; ring⟩
    · exact ⟨level, level + 1, rfl, by push_cast; ring⟩
    · exact ⟨level, level + 2, rfl, by push_cast; ring⟩

/-- Witness for C9 at level 1. -/
theorem C9_generate_contract_witness :
    1 ≤ 1 ∧
      ((generateEquations 1).length = 3 ∧
        ((generateEquations 1).map Equation.id).Nodup ∧
        ∀ e ∈ generateEquations 1, equationWellFormed e) :=
  ⟨by decide, C9_generate_contract 1 (by decide)⟩

/-- Claim C10: in every reachable state the selection holds pairwise-distinct
ids (taps append only absent ids, deselection filters, round starts clear the
selection). -/
theorem C10_selected_ids_distinct (s : GameState) (h : Reachable s) :
    s.selectedIds.Nodup :=
  reachable_selectedIds_nodup h

/-- Witness for C10 at the initial state. -/
theorem C10_selected_ids_distinct_witness : initialState.selectedIds.Nodup :=
  C10_selected_ids_distinct initialState Reachable.init

/-- Claim C3 is refuted by the code: `handleStopGame` only sets `gameOver`
and cancels nothing, so the level-advance timeout scheduled by a correct
validation still fires after the game is stopped.  Concrete reachable trace:
start the game (level-1 values 2, 3, 4), tap `b0`, `b1`, `b2` (correct, a
1000 ms advance is scheduled), press Stop, then let the timeout fire: the
stopped game silently moves from level 1 to level 2 and a fresh round
(new batch, timer back at 15) is started while `gameOver` is still set. -/
theorem C3_stale_advance_fires_after_stop :
    Reachable stoppedState ∧
    stoppedState.gameOver = true ∧
    stoppedState.level = 1 ∧
    stoppedState.pending = [⟨1000, PendingAction.advanceLevel 1⟩] ∧
    Step stoppedState staleAdvance ∧
    Reachable staleAdvance ∧
    staleAdvance.gameOver = true ∧
    staleAdvance.level = 2 ∧
    staleAdvance.equations = generateEquations 2 ∧
    staleAdvance.timeLeft = 15 := by
  have r1 : Reachable afterStart :=
    Reachable.step Reachable.init (Step.start initialState)
  have r2 := Reachable.step r1 (Step.click afterStart "b0" (by decide))
  have r3 := Reachable.step r2 (Step.click _ "b1" (by decide))
  have r4 : Reachable afterThreeClicks :=
    Reachable.step r3 (Step.click _ "b2" (by decide))
  have r5 : Reachable stoppedState := Reachable.step r4 (Step.stop _)
  have hstep : Step stoppedState staleAdvance :=
    Step.fire stoppedState ⟨1000, PendingAction.advanceLevel 1⟩ [] [] (by decide)
  exact ⟨r5, by decide, by decide, by decide, hstep, Reachable.step r5 hstep,
    by decide, by decide, by decide, by decide⟩

end MathBubbles
